import Mathlib

/-!
Shallow embedding of `src/src/dataFrame/DataFramerXML.py` (classes `ParserXML`
and `DataFramerXML`).

Modelling conventions:
* XML elements are trees of tag names (`XTree`); attributes, text and the
  exact serialisation details of `xml.etree.cElementTree` are abstracted to
  the tag/nesting structure, which is all the verified claims depend on.
* The `iterparse` cursor is the list of its remaining `(event, elem)` pairs.
  A pair is either a parse event (`Except.ok`) or a mid-stream parse failure
  (`Except.error`), which in Python surfaces as an exception when the
  iterator is advanced.
* Python exceptions are mapped to the spec's taxonomy: the `ValueError`s for
  extension / root-tag problems are `FormatError`; the `ValueError`s for the
  export-spec cross-check and the tag-vocabulary check are `ValidationError`;
  the explicit `IOError` of `export_dataset` is `PathError`.  Additional
  constructors model unclassified runtime exceptions the code can hit:
  `fileNotFound` (builtin `open` in a missing directory), `attrError`
  (`None.items()`), `zeroDiv` (`i % 0`).
* File contents ("bytes") are `List Char`; each `output.write(...)` call is
  one `Chunk`.
* `root.clear()` mutates only the root object.  The event-level pass
  serialises every element as its original subtree, which is exact for every
  element but the root; the pass-level model `runChunks`/`yieldedElems`
  additionally tracks the clear-dependent state of the root (live on the
  construction-time cursor, stale after the in-block cursor reset).
-/

namespace OSMFrame

/-- Error taxonomy (spec section 7) plus unclassified Python runtime errors. -/
inductive Err where
  | FormatError
  | ValidationError
  | PathError
  | fileNotFound
  | attrError
  | zeroDiv
  deriving DecidableEq

/-- Parse event kind of `ET.iterparse(..., events=('start', 'end'))`. -/
inductive EvKind where
  | start
  | end_
  deriving DecidableEq

/-- XML element: a tag name and the list of child elements. -/
inductive XTree where
  | node (tag : String) (children : List XTree)

/-- Tag of an element. -/
def XTree.tag : XTree → String
  | XTree.node t _ => t

/-- Children of an element. -/
def XTree.children : XTree → List XTree
  | XTree.node _ cs => cs

/-- One `(event, elem)` pair yielded by the iterparse iterator. -/
structure Event where
  kind : EvKind
  elem : XTree

/-- An item produced by advancing the parse cursor: an event, or the parse
error raised while reading malformed input. -/
abbrev PEvent := Except Err Event

/-- Serialisation token: opening tag, closing tag, or raw character data. -/
inductive Tok where
  | openT (t : String)
  | closeT (t : String)
  | textT (s : String)
  deriving DecidableEq

/-- Bytes of one serialisation token. -/
def renderTok : Tok → List Char
  | Tok.openT t => '<' :: t.data ++ ['>']
  | Tok.closeT t => '<' :: '/' :: t.data ++ ['>']
  | Tok.textT s => s.data

/-- Bytes of a token sequence. -/
def renderToks (ts : List Tok) : List Char :=
  (ts.map renderTok).flatten

mutual

/-- Token stream of one element subtree, in document order. -/
def treeToks : XTree → List Tok
  | XTree.node t cs => Tok.openT t :: forestToks cs ++ [Tok.closeT t]

/-- Token stream of a list of sibling subtrees. -/
def forestToks : List XTree → List Tok
  | [] => []
  | c :: cs => treeToks c ++ forestToks cs

end

/-- Models `ET.tostring(element, encoding='utf-8')`: the serialised bytes of
one element (no XML declaration is emitted for encoding `utf-8`). -/
def tostring (t : XTree) : List Char :=
  renderToks (treeToks t)

mutual

/-- Event sequence `ET.iterparse` produces for one element subtree:
a `start` event, the events of the children, then an `end` event. -/
def treeEvents : XTree → List Event
  | XTree.node t cs =>
      Event.mk EvKind.start (XTree.node t cs) ::
        (forestEvents cs ++ [Event.mk EvKind.end_ (XTree.node t cs)])

/-- Event sequence of a list of sibling subtrees. -/
def forestEvents : List XTree → List Event
  | [] => []
  | c :: cs => treeEvents c ++ forestEvents cs

end

/-- Cursor over a well-formed document with root element `d`: every advance
succeeds, so each item is `Except.ok`. -/
def docEvents (d : XTree) : List PEvent :=
  (treeEvents d).map Except.ok

mutual

/-- All tag names occurring in an element subtree (root tag included). -/
def treeTags : XTree → List String
  | XTree.node t cs => t :: forestTags cs

/-- All tag names occurring in a list of sibling subtrees. -/
def forestTags : List XTree → List String
  | [] => []
  | c :: cs => treeTags c ++ forestTags cs

end

/-- ASCII lower-casing of one character, as Python `str.lower` acts on the
tag and extension text this program compares. -/
def lowerChar (c : Char) : Char :=
  if 'A' ≤ c ∧ c ≤ 'Z' then Char.ofNat (c.toNat + 32) else c

/-- Python `s.lower()` on the strings this program compares (ASCII model). -/
def lowerStr (s : String) : String :=
  String.mk (s.data.map lowerChar)

/-- Python `s.split('.')` on the characters of a file name: the list of
dot-separated components (never empty; `""` splits to `[""]`). -/
def splitDots : List Char → List (List Char)
  | [] => [[]]
  | c :: cs =>
      if c = '.' then [] :: splitDots cs
      else
        match splitDots cs with
        | [] => [[c]]
        | p :: ps => (c :: p) :: ps

/-- Final dot-separated component of a file name: `name.split('.')[-1]`. -/
def lastExt (s : String) : List Char :=
  (splitDots s.data).getLastD []

/-- Source extension check of `ParserXML.__init__`:
`osmFile.split('.')[-1].lower() != 'osm'` raises `ValueError` (FormatError),
so acceptance is case-insensitive. -/
def srcExtOk (osmFile : String) : Bool :=
  (lastExt osmFile).map lowerChar == "osm".data

/-- Destination extension check of `DataFramerXML.export_dataset`:
`export_file.split('.')[-1] != 'osm'` raises `ValueError` (FormatError),
so acceptance is case-sensitive. -/
def dstExtOk (f : String) : Bool :=
  lastExt f == "osm".data

/-- Models `ParserXML._check_root`: `_, self.root = next(self._context)` then
`ValueError` (FormatError) unless `self.root.tag.lower() == 'osm'`.  On
success returns the consumed root element and the remaining cursor.  An empty
cursor (`StopIteration`) and a parse failure at the first advance are errors. -/
def check_root : List PEvent → Except Err (XTree × List PEvent)
  | [] => Except.error Err.FormatError
  | Except.error e :: _ => Except.error e
  | Except.ok ev :: rest =>
      if lowerStr ev.elem.tag == "osm" then Except.ok (ev.elem, rest)
      else Except.error Err.FormatError

/-- Python truthiness of the `export` keyword value: `none` models an absent
key (`kwargs.get` returns `None`, which is falsy); `some b` a present value
of truthiness `b`. -/
def truthy : Option Bool → Bool
  | none => false
  | some b => b

/-- The export/export_files cross-check of `DataFramerXML._validate`:
`if not self.export: pass`
`elif self.export is None and self.export_files is not None or`
`     self.export is not None and self.export_files is None: raise ValueError`.
Returns `true` exactly when the `ValueError` (ValidationError) is raised. -/
def exportFilesMismatch (exportOpt : Option Bool)
    (files : Option (List (String × Nat))) : Bool :=
  if !truthy exportOpt then false
  else (exportOpt.isNone && files.isSome) || (exportOpt.isSome && files.isNone)

/-- Models the tag-vocabulary scan of `DataFramerXML._validate`:
`for event, elem in self.context: allTags.add(elem.tag)` — it consumes the
whole cursor, collecting every event's element tag; a parse failure mid-scan
propagates. -/
def collectTags : List PEvent → Except Err (List String)
  | [] => Except.ok []
  | Except.error e :: _ => Except.error e
  | Except.ok ev :: rest =>
      match collectTags rest with
      | Except.error e => Except.error e
      | Except.ok ts => Except.ok (ev.elem.tag :: ts)

/-- State of a constructed `DataFramerXML` object.  `sourceEvents` is the
event sequence a fresh `ET.iterparse(self.source, ...)` over the (unchanged)
source file produces; `ctx` is the live cursor `self._context`. -/
structure Framer where
  sourceEvents : List PEvent
  ctx : List PEvent
  root : XTree
  tags : List String
  export_files : Option (List (String × Nat))
  exportOpt : Option Bool
  tagValidation : Bool
  rootPath : String

/-- Models `DataFramerXML.__init__` (which runs `ParserXML.__init__`, i.e. the
source extension check, cursor creation and `_check_root`, then stores the
options and runs `_validate`).  `export_files` is a list of
(destination, factor) pairs in dict insertion order.  When tag validation
runs it consumes the cursor completely, so the stored `ctx` is `[]`. -/
def mkFramer (osmFile : String) (sourceEvents : List PEvent) (tags : List String)
    (files : Option (List (String × Nat))) (exportOpt : Option Bool)
    (tagValidation : Bool) (rootPath : String) : Except Err Framer :=
  if !srcExtOk osmFile then Except.error Err.FormatError
  else
    match check_root sourceEvents with
    | Except.error e => Except.error e
    | Except.ok (root, ctx) =>
        if exportFilesMismatch exportOpt files then Except.error Err.ValidationError
        else if tagValidation then
          match collectTags ctx with
          | Except.error e => Except.error e
          | Except.ok allTags =>
              if tags.all (fun t => allTags.contains t) then
                Except.ok (Framer.mk sourceEvents [] root tags files exportOpt
                  tagValidation rootPath)
              else Except.error Err.ValidationError
        else
          Except.ok (Framer.mk sourceEvents ctx root tags files exportOpt
            tagValidation rootPath)

/-- Elements yielded by the generator `ParserXML._get_element` over a given
event sequence: every element whose `end` event occurs and whose tag is in
`self.tags`, in document order.  The `self.root.clear()` call after each
yield mutates only the root object, so each yielded element is its original
subtree except possibly the root itself; `yieldedElems` (below) refines this
model with that mutation for the one element it can affect, and is used for
the claims whose byte content depends on it. -/
def get_element (tags : List String) (evs : List Event) : List XTree :=
  evs.filterMap (fun e =>
    if e.kind == EvKind.end_ && tags.contains e.elem.tag then some e.elem
    else none)

/-- Positional sampling done by the export loop:
`for i, element in enumerate(...): if i % factor == 0: write(element)`,
with `i` starting at the given counter value. -/
def sampleAux (k : Nat) : Nat → List α → List α
  | _, [] => []
  | i, a :: t =>
      if i % k == 0 then a :: sampleAux k (i + 1) t else sampleAux k (i + 1) t

/-- Sampling with the counter starting at 0, as in `enumerate`. -/
def sampleEvery (k : Nat) (l : List α) : List α :=
  sampleAux k 0 l

/-- One `output.write(...)` call of `export_dataset`. -/
inductive Chunk where
  | decl
  | openRoot
  | elemChunk (bytes : List Char)
  | closeRoot
  deriving DecidableEq

/-- Bytes written by one `write` call:
`b'<?xml version="1.0" encoding="UTF-8"?>\n'`, `b'<osm>\n  '`,
`ET.tostring(element, encoding='utf-8')`, `b'</osm>'`. -/
def renderChunk : Chunk → List Char
  | Chunk.decl => "<?xml version=\"1.0\" encoding=\"UTF-8\"?>\n".data
  | Chunk.openRoot => "<osm>\n  ".data
  | Chunk.elemChunk bs => bs
  | Chunk.closeRoot => "</osm>".data

/-- Full byte content of a destination file from its write calls. -/
def renderChunks (cs : List Chunk) : List Char :=
  (cs.map renderChunk).flatten

/-- The element-writing loop of `export_dataset` fused with the generator
`_get_element`, starting at counter `i`: for each remaining cursor item, a
parse failure aborts the pass (nothing more is written, in particular not the
closing root tag); an `end` event with a filtered tag is counted and, when
`i % factor == 0`, its serialisation is written (`i % 0` raises
`ZeroDivisionError`).  When the cursor is exhausted the closing root tag is
written.  Returns the chunks written from this point on, the aborting error
if any, and the cursor items left unconsumed.  Each element is serialised as
its original subtree; this is exact except for the root element when the
filter contains the root's tag, whose `root.clear()`-dependent serialisation
is modelled by `runChunks`/`yieldedElems` (which agree with this pass for a
stale root, and for every filter that excludes the root's tag). -/
def passChunksAux (tags : List String) (factor : Nat) :
    Nat → List PEvent → List Chunk × Option Err × List PEvent
  | _, [] => ([Chunk.closeRoot], none, [])
  | _, Except.error e :: rest => ([], some e, rest)
  | i, Except.ok ev :: rest =>
      if ev.kind == EvKind.end_ && tags.contains ev.elem.tag then
        if factor == 0 then ([], some Err.zeroDiv, rest)
        else if i % factor == 0 then
          match passChunksAux tags factor (i + 1) rest with
          | (cs, err, r) => (Chunk.elemChunk (tostring ev.elem) :: cs, err, r)
        else passChunksAux tags factor (i + 1) rest
      else passChunksAux tags factor i rest

/-- One `with open(...) as output:` block of `export_dataset`: writes the XML
declaration and the opening root tag, then runs the element loop. -/
def withBlockChunks (tags : List String) (factor : Nat) (ctx : List PEvent) :
    List Chunk × Option Err × List PEvent :=
  match passChunksAux tags factor 0 ctx with
  | (cs, err, rest) => (Chunk.decl :: Chunk.openRoot :: cs, err, rest)

/-- The `for export_file, factor in self.export_files.items():` loop of
`export_dataset`.  Per entry: the (case-sensitive) destination extension
check, then `open` (which fails with `fileNotFound` when the directory
`default_path` does not exist, creating no file), then the with-block; after
a fully successful pass the cursor is reset to a fresh iterparse over the
source (`src`) and the loop continues.  Returns the files created (name and
chunks written), the aborting error if any, and the final cursor. -/
def exportLoop (src : List PEvent) (tags : List String) (dpExists : Bool) :
    List (String × Nat) → List PEvent →
      List (String × List Chunk) × Option Err × List PEvent
  | [], ctx => ([], none, ctx)
  | (f, factor) :: rest, ctx =>
      if !dstExtOk f then ([], some Err.FormatError, ctx)
      else if !dpExists then ([], some Err.fileNotFound, ctx)
      else
        match withBlockChunks tags factor ctx with
        | (cs, some e, ctx') => ([(f, cs)], some e, ctx')
        | (cs, none, _) =>
            match exportLoop src tags dpExists rest src with
            | (outs, err, ctxF) => ((f, cs) :: outs, err, ctxF)

/-- Models `DataFramerXML.export_dataset(default_path)`.  `pathExists` models
`os.path.exists` / the directory part of the filesystem: the guard
`if not os.path.exists(self.rootPath): raise IOError` (PathError) tests
`self.rootPath`, while the files are opened under `default_path`.
`self.export_files.items()` on `None` raises `AttributeError`. -/
def export_dataset (fr : Framer) (pathExists : String → Bool)
    (default_path : String) :
    List (String × List Chunk) × Option Err × List PEvent :=
  if !pathExists fr.rootPath then ([], some Err.PathError, fr.ctx)
  else
    match fr.export_files with
    | none => ([], some Err.attrError, fr.ctx)
    | some files =>
        exportLoop fr.sourceEvents fr.tags (pathExists default_path) files fr.ctx

/-- Token stream of one output file's body: the opening root tag and the
whitespace the code writes with it, the tokens of the selected elements, and
the closing root tag. -/
def outputToks (sel : List XTree) : List Tok :=
  Tok.openT "osm" :: Tok.textT "\n  " :: (forestToks sel ++ [Tok.closeT "osm"])

/-- Stack-based well-formedness check of a token stream: every closing tag
matches the innermost open tag and everything opened is closed. -/
def chkAux : List String → List Tok → Bool
  | stk, [] => stk.isEmpty
  | stk, Tok.textT _ :: r => chkAux stk r
  | stk, Tok.openT t :: r => chkAux (t :: stk) r
  | stk, Tok.closeT t :: r =>
      match stk with
      | [] => false
      | s :: ss => s == t && chkAux ss r

/-- Root tag of a parsed token stream: the first opening tag, ignoring
leading character data. -/
def firstOpenTag : List Tok → Option String
  | [] => none
  | Tok.openT t :: _ => some t
  | Tok.textT _ :: r => firstOpenTag r
  | Tok.closeT _ :: _ => none

/-- Sample source document with lowercase root tag: four children, three
tagged `node` and one tagged `way`. -/
def doc0 : XTree :=
  XTree.node "osm"
    [XTree.node "node" [], XTree.node "way" [], XTree.node "node" [],
      XTree.node "node" []]

/-- Sample source document whose root tag is the uppercase `OSM`, which the
case-insensitive root check accepts. -/
def docOSM : XTree :=
  XTree.node "OSM" [XTree.node "node" []]

/-- A `DataFramerXML` state as left by a successful construction over `doc0`
without tag validation, with the `root` option set to `"rootdir"` and one
export target. -/
def framer6 : Framer :=
  Framer.mk (docEvents doc0) (((treeEvents doc0).drop 1).map Except.ok) doc0
    ["node"] (some [("out.osm", 1)]) (some true) false "rootdir"

mutual

/-- Does some node of the subtree carry a tag in the filter — i.e. does the
subtree's event range make `_get_element` yield (and hence `root.clear()`
run) at least once? -/
def treeHasTag (tags : List String) : XTree → Bool
  | XTree.node t cs => tags.contains t || forestHasTag tags cs

/-- Does some node of the forest carry a tag in the filter? -/
def forestHasTag (tags : List String) : List XTree → Bool
  | [] => false
  | c :: cs => treeHasTag tags c || forestHasTag tags cs

end

/-- Top-level children of the live root still attached when the root's own
end event is reached.  `root.clear()` runs after every yield of
`_get_element`; in `xml.etree` a child is appended to the root at its start
tag, so the clear that follows the last yield detaches every top-level child
up to and including the one whose subtree produced that yield, and only the
children after it are (re)accumulated by the time the root closes.  If no
child subtree yields, no clear precedes the root's end and every child is
still attached. -/
def tailAfterLastMatch (tags : List String) : List XTree → List XTree
  | [] => []
  | c :: cs =>
      if forestHasTag tags cs then tailAfterLastMatch tags cs
      else if treeHasTag tags c then cs
      else c :: tailAfterLastMatch tags cs

/-- The elements `_get_element` yields in one full pass over the source,
each taken at the state the object has when `ET.tostring` serialises it —
i.e. with the `root.clear()` mutation accounted for.  Elements other than
the root are fully built before their end event and are never mutated
(`clear` only ever runs on `self.root`), so they are their original
subtrees.  The root itself is yielded last, iff its tag is in the filter;
when `self.root` is the live root of this parse (`live = true`, the pass
running on the cursor made at construction) it is serialised with only the
children `tailAfterLastMatch` leaves, while on a pass after the in-block
cursor reset `self.root` is a stale object (`live = false`), the clears
mutate that dead object, and the current root retains every child. -/
def yieldedElems (live : Bool) (tags : List String) : XTree → List XTree
  | XTree.node rt cs =>
      get_element tags (forestEvents cs) ++
        (if tags.contains rt then
          [XTree.node rt (if live then tailAfterLastMatch tags cs else cs)]
        else [])

/-- Chunks one with-block pass of `export_dataset` writes over a full parse
of the well-formed source document `d` with factor `k ≥ 1`, with the
`root.clear()` mutation accounted for via `live` (see `yieldedElems`). -/
def runChunks (live : Bool) (tags : List String) (k : Nat) (d : XTree) :
    List Chunk :=
  Chunk.decl :: Chunk.openRoot ::
    ((sampleEvery k (yieldedElems live tags d)).map
      (fun t => Chunk.elemChunk (tostring t)) ++ [Chunk.closeRoot])

/-- Document with two filtered children, used to exhibit the rerun
divergence when the filter also contains the root's tag. -/
def docMut : XTree :=
  XTree.node "osm" [XTree.node "node" [], XTree.node "node" []]

/-! ## Lemmas about the positional sampling of the export loop -/

/-- Advancing the counter over a block of positions none of which is a
multiple of `k` selects nothing. -/
theorem sampleAux_skip {α : Type} (k : Nat) :
    ∀ (m : Nat) (t : List α) (i : Nat), (∀ j, j < m → (i + j) % k ≠ 0) →
      sampleAux k i t = sampleAux k (i + m) (t.drop m) := by
  intro m
  induction m with
  | zero => intro t i _; simp
  | succ m ih =>
    intro t i h
    cases t with
    | nil => simp [sampleAux]
    | cons a t' =>
      have h0 : i % k ≠ 0 := by simpa using h 0 (Nat.succ_pos m)
      have hb : (i % k == 0) = false := by simpa using h0
      have hstep : sampleAux k i (a :: t') = sampleAux k (i + 1) t' := by
        simp [sampleAux, hb]
      rw [hstep]
      have h' : ∀ j, j < m → (i + 1 + j) % k ≠ 0 := by
        intro j hj
        have hji := h (j + 1) (by omega)
        have e : i + (j + 1) = i + 1 + j := by omega
        rwa [e] at hji
      rw [ih t' (i + 1) h']
      have e2 : i + 1 + m = i + (m + 1) := by omega
      rw [e2]
      rfl

/-- At a counter that is a multiple of `k`, the head is selected and the next
`k - 1` items are skipped. -/
theorem sampleAux_block {α : Type} {k : Nat} (hk : 1 ≤ k) (i : Nat)
    (hi : i % k = 0) (a : α) (t : List α) :
    sampleAux k i (a :: t) = a :: sampleAux k (i + k) (t.drop (k - 1)) := by
  have hb : (i % k == 0) = true := by simpa using hi
  have hstep : sampleAux k i (a :: t) = a :: sampleAux k (i + 1) t := by
    simp [sampleAux, hb]
  rw [hstep]
  have hskip : ∀ j, j < k - 1 → (i + 1 + j) % k ≠ 0 := by
    intro j hj
    have e : i + 1 + j = i + (1 + j) := by omega
    have hlt : (1 + j) % k = 1 + j := Nat.mod_eq_of_lt (by omega)
    rw [e, Nat.add_mod, hi, Nat.zero_add, hlt, hlt]
    omega
  rw [sampleAux_skip k (k - 1) t (i + 1) hskip]
  have e2 : i + 1 + (k - 1) = i + k := by omega
  rw [e2]

/-- Ceiling-division recurrence used for the sample-count formula. -/
theorem ceil_div_step (k n : Nat) (hk : 1 ≤ k) (hn : 1 ≤ n) :
    (n + k - 1) / k = 1 + (n - k + k - 1) / k := by
  rcases le_or_lt n k with h | h
  · have h1 : n - k = 0 := Nat.sub_eq_zero_of_le h
    rw [h1]
    have e0 : (0 + k - 1) / k = 0 := Nat.div_eq_of_lt (by omega)
    rw [e0]
    have e1 : n + k - 1 = (n - 1) + 1 * k := by omega
    rw [e1, Nat.add_mul_div_right _ _ (by omega : 0 < k),
      Nat.div_eq_of_lt (by omega : n - 1 < k)]
  · have h2 : n - k + k - 1 = n - 1 := by omega
    have h3 : n + k - 1 = (n - 1) + k := by omega
    rw [h2, h3, Nat.add_div_right _ (by omega : 0 < k)]
    omega

/-- The sampler keeps `⌈n / k⌉ = (n + k - 1) / k` of `n` items. -/
theorem length_sampleAux {α : Type} {k : Nat} (hk : 1 ≤ k) :
    ∀ (n : Nat) (l : List α), l.length = n → ∀ (i : Nat), i % k = 0 →
      (sampleAux k i l).length = (n + k - 1) / k := by
  intro n
  induction n using Nat.strong_induction_on with
  | _ n ih =>
    intro l hl i hi
    cases l with
    | nil =>
      have hn : n = 0 := by simpa using hl.symm
      subst hn
      simp [sampleAux]
      exact (Nat.div_eq_of_lt (by omega)).symm
    | cons a t =>
      have hn1 : 1 ≤ n := by simp at hl; omega
      rw [sampleAux_block hk i hi]
      have hlen : (t.drop (k - 1)).length = n - k := by
        simp at hl ⊢; omega
      have hik : (i + k) % k = 0 := by rw [Nat.add_mod_right]; exact hi
      have hrec := ih (n - k) (by omega) (t.drop (k - 1)) hlen (i + k) hik
      simp only [List.length_cons, hrec]
      rw [ceil_div_step k n hk hn1]
      omega

/-- The `j`-th sampled item is the item at source position `j * k`. -/
theorem get?_sampleAux {α : Type} {k : Nat} (hk : 1 ≤ k) :
    ∀ (j : Nat) (l : List α) (i : Nat), i % k = 0 →
      (sampleAux k i l)[j]? = l[j * k]? := by
  intro j
  induction j with
  | zero =>
    intro l i hi
    cases l with
    | nil => simp [sampleAux]
    | cons a t => rw [sampleAux_block hk i hi]; simp
  | succ j ih =>
    intro l i hi
    cases l with
    | nil => simp [sampleAux]
    | cons a t =>
      rw [sampleAux_block hk i hi]
      have hik : (i + k) % k = 0 := by rw [Nat.add_mod_right]; exact hi
      have hih := ih (t.drop (k - 1)) (i + k) hik
      have hdrop : (t.drop (k - 1))[j * k]? = t[k - 1 + j * k]? :=
        List.getElem?_drop t (k - 1) (j * k)
      have e : (j + 1) * k = (k - 1 + j * k) + 1 := by
        have e1 : (j + 1) * k = j * k + k := by ring
        omega
      rw [List.getElem?_cons_succ, hih, hdrop, e, List.getElem?_cons_succ]

/-- Stride 1 keeps every item. -/
theorem sampleAux_one {α : Type} : ∀ (l : List α) (i : Nat), sampleAux 1 i l = l := by
  intro l
  induction l with
  | nil => intro i; rfl
  | cons a t ih => intro i; simp [sampleAux, Nat.mod_one, ih]

/-! ## Lemmas about the export pass -/

/-- Over an error-free cursor and a positive factor, the with-block loop
writes exactly the serialisations of the sampled filtered elements followed
by the closing root tag, succeeds, and exhausts the cursor. -/
theorem passChunksAux_pure (tags : List String) {k : Nat} (hk : 1 ≤ k) :
    ∀ (evs : List Event) (i : Nat),
      passChunksAux tags k i (evs.map Except.ok) =
        ((sampleAux k i (get_element tags evs)).map
            (fun t => Chunk.elemChunk (tostring t)) ++ [Chunk.closeRoot],
          none, []) := by
  intro evs
  induction evs with
  | nil => intro i; simp [passChunksAux, get_element, sampleAux]
  | cons e t ih =>
    intro i
    have hknz : ¬k = 0 := by omega
    by_cases hc : e.kind = EvKind.end_ ∧ e.elem.tag ∈ tags
    · by_cases hm : i % k = 0
      · simp [passChunksAux, hc, hknz, hm, get_element, List.filterMap_cons,
          sampleAux, ih]
      · simp [passChunksAux, hc, hknz, hm, get_element, List.filterMap_cons,
          sampleAux, ih]
    · simp [passChunksAux, hc, get_element, List.filterMap_cons, ih]

/-- The closing root tag appears among the chunks of the element loop iff the
loop ran to successful exhaustion of the cursor. -/
theorem closeRoot_mem_passChunksAux (tags : List String) (k : Nat) :
    ∀ (evs : List PEvent) (i : Nat),
      (Chunk.closeRoot ∈ (passChunksAux tags k i evs).1 ↔
        (passChunksAux tags k i evs).2.1 = none) := by
  intro evs
  induction evs with
  | nil => intro i; simp [passChunksAux]
  | cons pe t ih =>
    intro i
    cases pe with
    | error e => simp [passChunksAux]
    | ok ev =>
      by_cases hc : ev.kind = EvKind.end_ ∧ ev.elem.tag ∈ tags
      · by_cases hk0 : k = 0
        · simp [passChunksAux, hc, hk0]
        · by_cases hm : i % k = 0
          · have ihh := ih (i + 1)
            rcases hrec : passChunksAux tags k (i + 1) t with ⟨cs, err, r⟩
            rw [hrec] at ihh
            simp only at ihh
            simp [passChunksAux, hc, hk0, hm, hrec, ihh]
          · simp [passChunksAux, hc, hk0, hm, ih]
      · simp [passChunksAux, hc, ih]

/-- C7: in any export pass, the closing root tag is written iff the element
stream was fully and successfully exhausted; a pass aborted by a mid-stream
failure (parse error, zero stride) never writes the closing root tag, so the
destination never looks complete. -/
theorem c7_close_tag_only_on_success (tags : List String) (k : Nat)
    (ctx : List PEvent) :
    Chunk.closeRoot ∈ (withBlockChunks tags k ctx).1 ↔
      (withBlockChunks tags k ctx).2.1 = none := by
  have h := closeRoot_mem_passChunksAux tags k ctx 0
  unfold withBlockChunks
  rcases hrec : passChunksAux tags k 0 ctx with ⟨cs, err, r⟩
  rw [hrec] at h
  simp only at h
  simpa using h

/-- C1: one destination pass over an error-free cursor writes exactly the XML
declaration, the opening root tag, the serialisations of the sampled filtered
elements and the closing root tag, where for stride `k ≥ 1` the sample has
`⌈M / k⌉ = (M + k - 1) / k` elements (`M` = number of filtered elements), its
`i`-th element (0-based) is the filtered element at index `i * k`, and stride
1 keeps every filtered element in order, none omitted or duplicated. -/
theorem c1_export_pass_samples (evs : List Event) (tags : List String)
    (k : Nat) (hk : 1 ≤ k) :
    (withBlockChunks tags k (evs.map Except.ok)).1 =
        [Chunk.decl, Chunk.openRoot] ++
          (sampleEvery k (get_element tags evs)).map
            (fun t => Chunk.elemChunk (tostring t)) ++ [Chunk.closeRoot]
      ∧ (withBlockChunks tags k (evs.map Except.ok)).2.1 = none
      ∧ (sampleEvery k (get_element tags evs)).length =
          ((get_element tags evs).length + k - 1) / k
      ∧ (∀ i, (sampleEvery k (get_element tags evs))[i]? =
          (get_element tags evs)[i * k]?)
      ∧ (k = 1 → sampleEvery k (get_element tags evs) = get_element tags evs) := by
  have hpass := passChunksAux_pure tags hk evs 0
  unfold withBlockChunks sampleEvery
  rw [hpass]
  refine ⟨by simp, rfl, ?_, ?_, ?_⟩
  · exact length_sampleAux hk (get_element tags evs).length _ rfl 0 (Nat.zero_mod k)
  · intro i; exact get?_sampleAux hk i _ 0 (Nat.zero_mod k)
  · intro h1; subst h1; exact sampleAux_one _ 0

/-- Witness for C1 at a concrete document, filter and stride 2. -/
theorem c1_export_pass_samples_witness :
    1 ≤ 2
    ∧ ((withBlockChunks ["node"] 2 ((treeEvents doc0).map Except.ok)).1 =
        [Chunk.decl, Chunk.openRoot] ++
          (sampleEvery 2 (get_element ["node"] (treeEvents doc0))).map
            (fun t => Chunk.elemChunk (tostring t)) ++ [Chunk.closeRoot]
      ∧ (withBlockChunks ["node"] 2 ((treeEvents doc0).map Except.ok)).2.1 = none
      ∧ (sampleEvery 2 (get_element ["node"] (treeEvents doc0))).length =
          ((get_element ["node"] (treeEvents doc0)).length + 2 - 1) / 2
      ∧ (∀ i, (sampleEvery 2 (get_element ["node"] (treeEvents doc0)))[i]? =
          (get_element ["node"] (treeEvents doc0))[i * 2]?)
      ∧ (2 = 1 → sampleEvery 2 (get_element ["node"] (treeEvents doc0)) =
          get_element ["node"] (treeEvents doc0))) :=
  ⟨by decide, c1_export_pass_samples (treeEvents doc0) ["node"] 2 (by decide)⟩

/-- Root validation on the event stream of a well-formed document: the first
event is consumed, success iff the root tag lowercases to "osm". -/
theorem checkRootDocEvents (d : XTree) :
    check_root (docEvents d) =
      (if lowerStr d.tag == "osm"
        then Except.ok (d, ((treeEvents d).drop 1).map Except.ok)
        else Except.error Err.FormatError) := by
  cases d with
  | node t cs => simp [docEvents, treeEvents, check_root, XTree.tag]

/-- C5: for every source document, root validation consumes the first parse
event and succeeds (returning the root and the rest of the cursor) iff the
first element's tag case-insensitively equals "osm"; otherwise it fails with
FormatError. -/
theorem c5_rootValidation (d : XTree) :
    check_root (docEvents d) =
      (if lowerStr d.tag == "osm"
        then Except.ok (d, ((treeEvents d).drop 1).map Except.ok)
        else Except.error Err.FormatError) :=
  checkRootDocEvents d

/-! ## Tag-vocabulary lemmas -/

mutual

/-- A tag occurs among the events of a subtree iff it occurs in the subtree. -/
theorem mem_tags_treeEvents (x : String) (tr : XTree) :
    (x ∈ (treeEvents tr).map (fun e => e.elem.tag)) ↔ x ∈ treeTags tr := by
  cases tr with
  | node t cs =>
    have ihf := mem_tags_forestEvents x cs
    simp only [treeEvents, treeTags, List.map_cons, List.map_append,
      List.map_nil, List.mem_cons, List.mem_append, List.mem_singleton,
      XTree.tag, ihf]
    tauto

/-- A tag occurs among the events of a forest iff it occurs in the forest. -/
theorem mem_tags_forestEvents (x : String) (cs : List XTree) :
    (x ∈ (forestEvents cs).map (fun e => e.elem.tag)) ↔ x ∈ forestTags cs := by
  cases cs with
  | nil => simp [forestEvents, forestTags]
  | cons c cs' =>
    have iht := mem_tags_treeEvents x c
    have ihf := mem_tags_forestEvents x cs'
    simp only [forestEvents, forestTags, List.map_append, List.mem_append,
      iht, ihf]

end

/-- After the root's start event has been consumed, the remaining events
still mention exactly the tags occurring in the document (the root's tag
recurs at its end event). -/
theorem mem_tags_dropped (x : String) (d : XTree) :
    (x ∈ ((treeEvents d).drop 1).map (fun e => e.elem.tag)) ↔ x ∈ treeTags d := by
  cases d with
  | node t cs =>
    have ihf := mem_tags_forestEvents x cs
    simp only [treeEvents, treeTags, List.drop_succ_cons, List.drop_zero,
      List.map_cons, List.map_append, List.map_nil, List.mem_cons,
      List.mem_append, List.mem_singleton, XTree.tag, ihf]
    tauto

/-- The vocabulary scan over an error-free cursor returns all event tags. -/
theorem collectTags_pure : ∀ (evs : List Event),
    collectTags (evs.map Except.ok) =
      Except.ok (evs.map (fun e => e.elem.tag)) := by
  intro evs
  induction evs with
  | nil => rfl
  | cons e t ih => simp [collectTags, ih]

/-- Successful construction with tag validation: the stored cursor is empty
(fully consumed by the scan). -/
theorem mkFramer_tv_ok (d : XTree) (file : String) (tags : List String)
    (files : Option (List (String × Nat))) (exportOpt : Option Bool)
    (rootPath : String)
    (hExt : srcExtOk file = true) (hRoot : lowerStr d.tag = "osm")
    (hMis : exportFilesMismatch exportOpt files = false)
    (hTags : ∀ t ∈ tags, t ∈ treeTags d) :
    mkFramer file (docEvents d) tags files exportOpt true rootPath =
      Except.ok (Framer.mk (docEvents d) [] d tags files exportOpt true
        rootPath) := by
  have hct : collectTags ((List.map Except.ok (treeEvents d)).tail)
      = Except.ok (((treeEvents d).tail).map (fun e => e.elem.tag)) := by
    rw [← List.map_tail]
    exact collectTags_pure ((treeEvents d).tail)
  have hallP : ∀ x ∈ tags,
      x ∈ (List.map (fun e => e.elem.tag) (treeEvents d)).tail := by
    intro x hx
    rw [← List.map_tail]
    have hmem := (mem_tags_dropped x d).mpr (hTags x hx)
    simpa [List.drop_one] using hmem
  unfold mkFramer
  rw [checkRootDocEvents d]
  simp [hExt, hRoot, hMis, hct]
  exact hallP

/-- Failed tag validation: some filter tag missing from the document. -/
theorem mkFramer_tv_err (d : XTree) (file : String) (tags : List String)
    (files : Option (List (String × Nat))) (exportOpt : Option Bool)
    (rootPath : String)
    (hExt : srcExtOk file = true) (hRoot : lowerStr d.tag = "osm")
    (hMis : exportFilesMismatch exportOpt files = false)
    (hTags : ¬∀ t ∈ tags, t ∈ treeTags d) :
    mkFramer file (docEvents d) tags files exportOpt true rootPath =
      Except.error Err.ValidationError := by
  have hct : collectTags ((List.map Except.ok (treeEvents d)).tail)
      = Except.ok (((treeEvents d).tail).map (fun e => e.elem.tag)) := by
    rw [← List.map_tail]
    exact collectTags_pure ((treeEvents d).tail)
  have hbadP : ¬∀ x ∈ tags,
      x ∈ (List.map (fun e => e.elem.tag) (treeEvents d)).tail := by
    intro hcon
    apply hTags
    intro t ht
    have hmem := hcon t ht
    rw [← List.map_tail] at hmem
    exact (mem_tags_dropped t d).mp (by simpa [List.drop_one] using hmem)
  unfold mkFramer
  rw [checkRootDocEvents d]
  simp [hExt, hRoot, hMis, hct, hbadP]

/-- C3: with tag validation enabled (and a consistent export option pair),
construction fails with ValidationError iff some tag in the filter does not
occur in the source document — and this happens at construction, before any
output file could be opened; when every filter tag occurs, construction
succeeds and no such error is raised. -/
theorem c3_tag_vocabulary (d : XTree) (file : String) (tags : List String)
    (files : Option (List (String × Nat))) (exportOpt : Option Bool)
    (rootPath : String)
    (hExt : srcExtOk file = true) (hRoot : lowerStr d.tag = "osm")
    (hMis : exportFilesMismatch exportOpt files = false) :
    (mkFramer file (docEvents d) tags files exportOpt true rootPath =
        Except.error Err.ValidationError ↔ ¬∀ t ∈ tags, t ∈ treeTags d)
    ∧ ((∀ t ∈ tags, t ∈ treeTags d) →
        mkFramer file (docEvents d) tags files exportOpt true rootPath =
          Except.ok (Framer.mk (docEvents d) [] d tags files exportOpt true
            rootPath)) := by
  constructor
  · constructor
    · intro herr hall
      rw [mkFramer_tv_ok d file tags files exportOpt rootPath hExt hRoot hMis
        hall] at herr
      exact Except.noConfusion herr
    · intro hbad
      exact mkFramer_tv_err d file tags files exportOpt rootPath hExt hRoot
        hMis hbad
  · intro hall
    exact mkFramer_tv_ok d file tags files exportOpt rootPath hExt hRoot hMis
      hall

/-- Witness for C3: a filter tag ("relation") absent from `doc0` makes
construction fail, while the present tags succeed. -/
theorem c3_tag_vocabulary_witness :
    srcExtOk "map.osm" = true
    ∧ lowerStr doc0.tag = "osm"
    ∧ exportFilesMismatch (some true) (some [("out.osm", 2)]) = false
    ∧ ((mkFramer "map.osm" (docEvents doc0) ["relation"]
          (some [("out.osm", 2)]) (some true) true "." =
            Except.error Err.ValidationError ↔
          ¬∀ t ∈ ["relation"], t ∈ treeTags doc0)
      ∧ ((∀ t ∈ ["relation"], t ∈ treeTags doc0) →
          mkFramer "map.osm" (docEvents doc0) ["relation"]
            (some [("out.osm", 2)]) (some true) true "." =
              Except.ok (Framer.mk (docEvents doc0) [] doc0 ["relation"]
                (some [("out.osm", 2)]) (some true) true "."))) :=
  ⟨by decide, by decide, by decide,
    c3_tag_vocabulary doc0 "map.osm" ["relation"] (some [("out.osm", 2)])
      (some true) "." (by decide) (by decide) (by decide)⟩

/-- C2 counterexample: an export specification that supplies the stride map
(`files`) but not the export target (`export` absent) does not raise at all —
construction succeeds — contradicting the claim that a ValidationError is
raised in both directions. -/
theorem c2_counterexample :
    (mkFramer "a.osm" (docEvents doc0) ["node"] (some [("out.osm", 1)]) none
        false ".").toOption.isSome = true := by
  rfl

/-- C2 amended: at construction (source accepted, tag validation off), a
ValidationError is raised iff the export-target option is supplied truthy
while the export-files (stride map) option is absent; it is raised before the
source is parsed for export purposes, but the opposite direction — strides
without target — passes silently, as does a falsy export value. -/
theorem c2_export_cross_check (d : XTree) (file : String) (tags : List String)
    (files : Option (List (String × Nat))) (exportOpt : Option Bool)
    (rootPath : String)
    (hExt : srcExtOk file = true) (hRoot : lowerStr d.tag = "osm") :
    mkFramer file (docEvents d) tags files exportOpt false rootPath =
        Except.error Err.ValidationError ↔
      (truthy exportOpt = true ∧ files = none) := by
  unfold mkFramer
  rw [checkRootDocEvents d]
  cases exportOpt with
  | none => simp [hExt, hRoot, exportFilesMismatch, truthy]
  | some b =>
    cases b with
    | false => simp [hExt, hRoot, exportFilesMismatch, truthy]
    | true =>
      cases files with
      | none => simp [hExt, hRoot, exportFilesMismatch, truthy]
      | some fs => simp [hExt, hRoot, exportFilesMismatch, truthy]

/-- Witness for C2's amended statement: truthy export with absent files is
rejected with ValidationError. -/
theorem c2_export_cross_check_witness :
    srcExtOk "a.osm" = true
    ∧ lowerStr doc0.tag = "osm"
    ∧ (mkFramer "a.osm" (docEvents doc0) ["node"] none (some true) false "." =
          Except.error Err.ValidationError ↔
        (truthy (some true) = true ∧
          (none : Option (List (String × Nat))) = none)) :=
  ⟨by decide, by decide,
    c2_export_cross_check doc0 "a.osm" ["node"] none (some true) "."
      (by decide) (by decide)⟩

/-! ## Lemmas about the export loop -/

/-- A with-block pass over an error-free cursor succeeds, writes the
declaration, opening tag, sampled elements and closing tag, and exhausts the
cursor. -/
theorem withBlockChunks_pure (tags : List String) {k : Nat} (hk : 1 ≤ k)
    (l : List Event) :
    withBlockChunks tags k (l.map Except.ok) =
      (Chunk.decl :: Chunk.openRoot ::
          ((sampleAux k 0 (get_element tags l)).map
            (fun t => Chunk.elemChunk (tostring t)) ++ [Chunk.closeRoot]),
        none, []) := by
  unfold withBlockChunks
  rw [passChunksAux_pure tags hk l 0]

/-- Running the export loop from a freshly reopened cursor over an error-free
source, with every entry well-formed, writes one file per entry (each pass
over the full source, the cursor being reset between passes) and ends with
the cursor reset. -/
theorem exportLoop_all_src (l : List Event) (tags : List String) :
    ∀ (files : List (String × Nat)),
      (∀ p ∈ files, dstExtOk p.1 = true ∧ 1 ≤ p.2) →
      exportLoop (l.map Except.ok) tags true files (l.map Except.ok) =
        (files.map
            (fun p => (p.1, (withBlockChunks tags p.2 (l.map Except.ok)).1)),
          none, l.map Except.ok) := by
  intro files
  induction files with
  | nil => intro _; rfl
  | cons p rest ih =>
    intro hp
    rcases p with ⟨f, kf⟩
    obtain ⟨hdk, hkf⟩ := hp (f, kf) (by simp)
    have hw := withBlockChunks_pure tags hkf l
    have ihh := ih (fun q hq => hp q (by simp [hq]))
    simp [exportLoop, hdk, hw, ihh]

/-- C4: if tag validation is enabled at construction and succeeds, the shared
cursor is left fully consumed (`ctx = []`) and export does not reopen it
before the first pass; hence the first destination of the next export call
contains zero elements — declaration, opening root tag, closing root tag
only — while every later destination is produced from a freshly reopened
cursor over the full source. -/
theorem c4_stale_cursor_after_validation (d : XTree) (file : String)
    (tags : List String) (f1 : String) (k1 : Nat) (rest : List (String × Nat))
    (exportOpt : Option Bool) (rootPath : String) (pathExists : String → Bool)
    (dp : String)
    (hExt : srcExtOk file = true) (hRoot : lowerStr d.tag = "osm")
    (hMis : exportFilesMismatch exportOpt (some ((f1, k1) :: rest)) = false)
    (hTags : ∀ t ∈ tags, t ∈ treeTags d)
    (hrp : pathExists rootPath = true) (hdp : pathExists dp = true)
    (hf1 : dstExtOk f1 = true)
    (hrest : ∀ p ∈ rest, dstExtOk p.1 = true ∧ 1 ≤ p.2) :
    mkFramer file (docEvents d) tags (some ((f1, k1) :: rest)) exportOpt true
        rootPath =
      Except.ok (Framer.mk (docEvents d) [] d tags (some ((f1, k1) :: rest))
        exportOpt true rootPath)
    ∧ export_dataset
        (Framer.mk (docEvents d) [] d tags (some ((f1, k1) :: rest)) exportOpt
          true rootPath) pathExists dp =
      ((f1, [Chunk.decl, Chunk.openRoot, Chunk.closeRoot]) ::
          rest.map
            (fun p => (p.1, (withBlockChunks tags p.2 (docEvents d)).1)),
        none, docEvents d) := by
  constructor
  · exact mkFramer_tv_ok d file tags (some ((f1, k1) :: rest)) exportOpt
      rootPath hExt hRoot hMis hTags
  · have hloop := exportLoop_all_src (treeEvents d) tags rest hrest
    have hempty : withBlockChunks tags k1 ([] : List PEvent) =
        ([Chunk.decl, Chunk.openRoot, Chunk.closeRoot], none, []) := rfl
    simp [export_dataset, exportLoop, hrp, hdp, hf1, hempty, docEvents, hloop]

/-- Witness for C4 at a concrete document and export specification. -/
theorem c4_stale_cursor_after_validation_witness :
    srcExtOk "map.osm" = true
    ∧ lowerStr doc0.tag = "osm"
    ∧ exportFilesMismatch (some true) (some [("a.osm", 2), ("b.osm", 1)]) = false
    ∧ (∀ t ∈ ["node"], t ∈ treeTags doc0)
    ∧ (fun _ : String => true) "." = true
    ∧ dstExtOk "a.osm" = true
    ∧ (∀ p ∈ [("b.osm", 1)], dstExtOk p.1 = true ∧ 1 ≤ p.2)
    ∧ (mkFramer "map.osm" (docEvents doc0) ["node"]
          (some [("a.osm", 2), ("b.osm", 1)]) (some true) true "." =
        Except.ok (Framer.mk (docEvents doc0) [] doc0 ["node"]
          (some [("a.osm", 2), ("b.osm", 1)]) (some true) true ".")
      ∧ export_dataset
          (Framer.mk (docEvents doc0) [] doc0 ["node"]
            (some [("a.osm", 2), ("b.osm", 1)]) (some true) true ".")
          (fun _ => true) "." =
        (("a.osm", [Chunk.decl, Chunk.openRoot, Chunk.closeRoot]) ::
            [("b.osm", 1)].map
              (fun p =>
                (p.1, (withBlockChunks ["node"] p.2 (docEvents doc0)).1)),
          none, docEvents doc0)) :=
  ⟨by decide, by decide, by decide, by decide, rfl, by decide, by decide,
    c4_stale_cursor_after_validation doc0 "map.osm" ["node"] "a.osm" 2
      [("b.osm", 1)] (some true) "." (fun _ => true) "." (by decide)
      (by decide) (by decide) (by decide) rfl rfl (by decide) (by decide)⟩

/-- C6: evaluating the export at concrete filesystem states shows the
PathError guard tests the `root` option (`rootPath`), not the directory the
files are written into (`default_path`): with `rootdir` existing and the
write directory `outdir` missing, no file is created but the failure is the
unclassified `open` error, not PathError; with `outdir` existing and
`rootdir` missing, PathError is raised even though the write directory
exists. -/
theorem c6_path_guard_checks_wrong_directory :
    (export_dataset framer6 (fun s => s == "rootdir") "outdir").1 = []
    ∧ (export_dataset framer6 (fun s => s == "rootdir") "outdir").2.1 =
        some Err.fileNotFound
    ∧ (export_dataset framer6 (fun s => s == "outdir") "outdir").1 = []
    ∧ (export_dataset framer6 (fun s => s == "outdir") "outdir").2.1 =
        some Err.PathError :=
  ⟨rfl, rfl, rfl, rfl⟩

/-- A start event is ignored by the element loop. -/
theorem passChunksAux_start_skip (tags : List String) (k i : Nat) (r : XTree)
    (rest : List PEvent) :
    passChunksAux tags k i (Except.ok (Event.mk EvKind.start r) :: rest) =
      passChunksAux tags k i rest := by
  simp [passChunksAux]

/-- A leading start event is ignored by the whole with-block pass. -/
theorem withBlockChunks_start_skip (tags : List String) (k : Nat) (r : XTree)
    (rest : List PEvent) :
    withBlockChunks tags k (Except.ok (Event.mk EvKind.start r) :: rest) =
      withBlockChunks tags k rest := by
  unfold withBlockChunks
  rw [passChunksAux_start_skip]

/-- At the event level (elements serialised as their original subtrees), the
single-destination export after the cursor reset agrees with the export on
the post-root-check cursor: the reset cursor differs only by the root's
leading start event, which the element filter ignores. -/
theorem export_dataset_rerun_eq (fr : Framer) (r : XTree)
    (pathExists : String → Bool) (dp f : String) (k : Nat)
    (hsrc : fr.sourceEvents = Except.ok (Event.mk EvKind.start r) :: fr.ctx)
    (hfiles : fr.export_files = some [(f, k)]) :
    (export_dataset fr pathExists dp).1 =
        (export_dataset { fr with ctx := fr.sourceEvents } pathExists dp).1
      ∧ (export_dataset fr pathExists dp).2.1 =
        (export_dataset { fr with ctx := fr.sourceEvents } pathExists dp).2.1 := by
  have hw : withBlockChunks fr.tags k fr.sourceEvents =
      withBlockChunks fr.tags k fr.ctx := by
    rw [hsrc, withBlockChunks_start_skip]
  by_cases hrp : pathExists fr.rootPath
  · by_cases hdk : dstExtOk f
    · by_cases hdpe : pathExists dp
      · rcases hwc : withBlockChunks fr.tags k fr.ctx with ⟨cs, err, rest'⟩
        have hw2 : withBlockChunks fr.tags k fr.sourceEvents = (cs, err, rest') := by
          rw [hw, hwc]
        cases err with
        | none =>
            simp [export_dataset, exportLoop, hfiles, hrp, hdk, hdpe, hwc, hw2]
        | some e =>
            simp [export_dataset, exportLoop, hfiles, hrp, hdk, hdpe, hwc, hw2]
      · simp [export_dataset, exportLoop, hfiles, hrp, hdk, hdpe]
    · simp [export_dataset, exportLoop, hfiles, hrp, hdk]
  · simp [export_dataset, hrp]

/-- The document cursor starts with the root's start event, followed by the
post-root-check remainder. -/
theorem docEvents_eq_cons (d : XTree) :
    docEvents d =
      Except.ok (Event.mk EvKind.start d) ::
        ((treeEvents d).drop 1).map Except.ok := by
  cases d with
  | node t cs => rfl

/-- The generator's element selection distributes over concatenated event
sequences. -/
theorem get_element_append (tags : List String) (a b : List Event) :
    get_element tags (a ++ b) = get_element tags a ++ get_element tags b := by
  simp [get_element]

/-- Selection over a full document parse: the children's yields followed by
the root itself when its tag is in the filter. -/
theorem get_element_treeEvents (tags : List String) (rt : String)
    (cs : List XTree) :
    get_element tags (treeEvents (XTree.node rt cs)) =
      get_element tags (forestEvents cs) ++
        (if tags.contains rt then [XTree.node rt cs] else []) := by
  by_cases hc : rt ∈ tags
  · simp [treeEvents, get_element, List.filterMap_cons, List.filterMap_append,
      XTree.tag, hc]
  · simp [treeEvents, get_element, List.filterMap_cons, List.filterMap_append,
      XTree.tag, hc]

/-- A stale-root pass is exactly the event-level pass: with `self.root` dead,
every `root.clear()` is a no-op on the current parse and every element —
root included — is serialised as its original subtree. -/
theorem runChunks_stale (tags : List String) {k : Nat} (hk : 1 ≤ k)
    (d : XTree) :
    runChunks false tags k d = (withBlockChunks tags k (docEvents d)).1 := by
  cases d with
  | node rt cs =>
    rw [docEvents, withBlockChunks_pure tags hk, runChunks]
    unfold sampleEvery
    rw [get_element_treeEvents]
    by_cases hc : tags.contains rt = true
    · simp [yieldedElems, hc]
    · simp [yieldedElems, hc]

/-- C8 counterexample: for the unchanged source `docMut`, filter
{node, osm} (containing the root's tag) and stride 1, the first run — whose
`self.root` is the live root, emptied by the `root.clear()` after each
yielded child — and the second run — whose `self.root` is stale after the
in-block cursor reset, so the fresh root keeps all children — write
different bytes, refuting byte-for-byte identity of reruns with identical
inputs.  The stale run coincides with the event-level pass. -/
theorem c8_rerun_counterexample :
    (check_root (docEvents docMut)).toOption.isSome = true
    ∧ runChunks false ["node", "osm"] 1 docMut =
        (withBlockChunks ["node", "osm"] 1 (docEvents docMut)).1
    ∧ renderChunks (runChunks true ["node", "osm"] 1 docMut) ≠
        renderChunks (runChunks false ["node", "osm"] 1 docMut) :=
  ⟨rfl, rfl, by decide⟩

/-- C8 amended: rerunning the single-destination export on the same exporter
over the unchanged source is byte-for-byte identical provided the tag filter
does not contain the root's tag.  Under that hypothesis the live-root first
pass and the stale-root later pass yield the same elements (`root.clear()`
can then affect no serialised element), both equal the event-level pass, and
the two consecutive `export_dataset` calls agree on the files written and
the error outcome; when the filter contains the root's tag the runs can
differ (see the counterexample). -/
theorem c8_rerun_identical_amended (d : XTree) (tags : List String) (k : Nat)
    (fr : Framer) (pathExists : String → Bool) (dp f : String)
    (hk : 1 ≤ k)
    (hroot : tags.contains d.tag = false)
    (hsrc : fr.sourceEvents = docEvents d)
    (hctx : fr.ctx = ((treeEvents d).drop 1).map Except.ok)
    (htags : fr.tags = tags)
    (hfiles : fr.export_files = some [(f, k)]) :
    runChunks true tags k d = runChunks false tags k d
    ∧ runChunks false tags k d = (withBlockChunks tags k (docEvents d)).1
    ∧ renderChunks (runChunks true tags k d) =
        renderChunks (runChunks false tags k d)
    ∧ (export_dataset fr pathExists dp).1 =
        (export_dataset { fr with ctx := fr.sourceEvents } pathExists dp).1
    ∧ (export_dataset fr pathExists dp).2.1 =
        (export_dataset { fr with ctx := fr.sourceEvents } pathExists dp).2.1 := by
  subst htags
  have hy : yieldedElems true fr.tags d = yieldedElems false fr.tags d := by
    cases d with
    | node rt cs =>
      simp only [XTree.tag] at hroot
      have hmem : ¬rt ∈ fr.tags := by simpa using hroot
      simp [yieldedElems, hmem]
  have hrc : runChunks true fr.tags k d = runChunks false fr.tags k d := by
    unfold runChunks
    rw [hy]
  have hcons : fr.sourceEvents = Except.ok (Event.mk EvKind.start d) :: fr.ctx := by
    rw [hsrc, hctx, docEvents_eq_cons]
  obtain ⟨he1, he2⟩ := export_dataset_rerun_eq fr d pathExists dp f k hcons hfiles
  exact ⟨hrc, runChunks_stale fr.tags hk d, by rw [hrc], he1, he2⟩

/-- Witness for C8's amended statement on a concrete exporter state. -/
theorem c8_rerun_identical_amended_witness :
    1 ≤ 1
    ∧ (["node"].contains doc0.tag = false)
    ∧ framer6.sourceEvents = docEvents doc0
    ∧ framer6.ctx = ((treeEvents doc0).drop 1).map Except.ok
    ∧ framer6.tags = ["node"]
    ∧ framer6.export_files = some [("out.osm", 1)]
    ∧ (runChunks true ["node"] 1 doc0 = runChunks false ["node"] 1 doc0
      ∧ runChunks false ["node"] 1 doc0 =
          (withBlockChunks ["node"] 1 (docEvents doc0)).1
      ∧ renderChunks (runChunks true ["node"] 1 doc0) =
          renderChunks (runChunks false ["node"] 1 doc0)
      ∧ (export_dataset framer6 (fun _ => true) ".").1 =
          (export_dataset { framer6 with ctx := framer6.sourceEvents }
            (fun _ => true) ".").1
      ∧ (export_dataset framer6 (fun _ => true) ".").2.1 =
          (export_dataset { framer6 with ctx := framer6.sourceEvents }
            (fun _ => true) ".").2.1) :=
  ⟨by decide, by decide, rfl, rfl, rfl, rfl,
    c8_rerun_identical_amended doc0 ["node"] 1 framer6 (fun _ => true) "."
      "out.osm" (by decide) (by decide) rfl rfl rfl rfl⟩

/-- Hitting an entry with a bad destination extension aborts the loop with
FormatError; exactly the earlier entries' files exist. -/
theorem exportLoop_bad_entry (src : List Event) (tags : List String)
    (bad : String) (k : Nat) (post : List (String × Nat))
    (hbad : dstExtOk bad = false) :
    ∀ (pre : List (String × Nat)),
      (∀ p ∈ pre, dstExtOk p.1 = true ∧ 1 ≤ p.2) →
      ∀ (ctx0 : List Event),
        ((exportLoop (src.map Except.ok) tags true (pre ++ (bad, k) :: post)
            (ctx0.map Except.ok)).1.map Prod.fst = pre.map Prod.fst)
        ∧ (exportLoop (src.map Except.ok) tags true (pre ++ (bad, k) :: post)
            (ctx0.map Except.ok)).2.1 = some Err.FormatError := by
  intro pre
  induction pre with
  | nil => intro _ ctx0; simp [exportLoop, hbad]
  | cons p pre' ih =>
    intro hp ctx0
    rcases p with ⟨f, kf⟩
    obtain ⟨hdk, hkf⟩ := hp (f, kf) (by simp)
    have hw := withBlockChunks_pure tags hkf ctx0
    obtain ⟨ih1, ih2⟩ := ih (fun q hq => hp q (by simp [hq])) src
    constructor
    · simp [exportLoop, hdk, hw, ih1]
    · simp [exportLoop, hdk, hw, ih2]

/-- C10: the destination extension check is case-sensitive while the source
extension check is case-insensitive: a source path ending in ".OSM" is
accepted, whereas an export entry whose destination's final dot-component is
"OSM" (not exactly "osm") makes the export fail with FormatError with only
the earlier entries' files created — the bad destination is never opened. -/
theorem c10_extension_case_sensitivity (src ctx0 : List Event)
    (tags : List String) (root : XTree) (pre : List (String × Nat))
    (bad : String) (k : Nat) (post : List (String × Nat))
    (exportOpt : Option Bool) (tv : Bool) (rootPath : String)
    (pathExists : String → Bool) (dp : String)
    (hpre : ∀ p ∈ pre, dstExtOk p.1 = true ∧ 1 ≤ p.2)
    (hbad : dstExtOk bad = false)
    (hrp : pathExists rootPath = true) (hdp : pathExists dp = true) :
    srcExtOk "map.OSM" = true
    ∧ dstExtOk "out.OSM" = false
    ∧ (export_dataset
          (Framer.mk (src.map Except.ok) (ctx0.map Except.ok) root tags
            (some (pre ++ (bad, k) :: post)) exportOpt tv rootPath)
          pathExists dp).1.map Prod.fst = pre.map Prod.fst
    ∧ (export_dataset
          (Framer.mk (src.map Except.ok) (ctx0.map Except.ok) root tags
            (some (pre ++ (bad, k) :: post)) exportOpt tv rootPath)
          pathExists dp).2.1 = some Err.FormatError := by
  have h := exportLoop_bad_entry src tags bad k post hbad pre hpre ctx0
  refine ⟨by decide, by decide, ?_, ?_⟩
  · simpa [export_dataset, hrp, hdp] using h.1
  · simpa [export_dataset, hrp, hdp] using h.2

/-- Witness for C10 on a concrete export specification. -/
theorem c10_extension_case_sensitivity_witness :
    (∀ p ∈ [("a.osm", 1)], dstExtOk p.1 = true ∧ 1 ≤ p.2)
    ∧ dstExtOk "out.OSM" = false
    ∧ (fun _ : String => true) "." = true
    ∧ (srcExtOk "map.OSM" = true
      ∧ dstExtOk "out.OSM" = false
      ∧ (export_dataset
            (Framer.mk ((treeEvents doc0).map Except.ok)
              (((treeEvents doc0).drop 1).map Except.ok) doc0 ["node"]
              (some ([("a.osm", 1)] ++ ("out.OSM", 3) :: [])) (some true) false
              ".") (fun _ => true) ".").1.map Prod.fst =
          [("a.osm", 1)].map Prod.fst
      ∧ (export_dataset
            (Framer.mk ((treeEvents doc0).map Except.ok)
              (((treeEvents doc0).drop 1).map Except.ok) doc0 ["node"]
              (some ([("a.osm", 1)] ++ ("out.OSM", 3) :: [])) (some true) false
              ".") (fun _ => true) ".").2.1 = some Err.FormatError) :=
  ⟨by decide, by decide, rfl,
    c10_extension_case_sensitivity (treeEvents doc0) ((treeEvents doc0).drop 1)
      ["node"] doc0 [("a.osm", 1)] "out.OSM" 3 [] (some true) false "."
      (fun _ => true) "." (by decide) (by decide) rfl rfl⟩

/-! ## Serialisation and well-formedness of output files -/

/-- Chunk rendering distributes over cons. -/
theorem renderChunks_cons (c : Chunk) (cs : List Chunk) :
    renderChunks (c :: cs) = renderChunk c ++ renderChunks cs := by
  simp [renderChunks]

/-- Chunk rendering distributes over append. -/
theorem renderChunks_append (a b : List Chunk) :
    renderChunks (a ++ b) = renderChunks a ++ renderChunks b := by
  simp [renderChunks]

/-- Token rendering distributes over cons. -/
theorem renderToks_cons (t : Tok) (ts : List Tok) :
    renderToks (t :: ts) = renderTok t ++ renderToks ts := by
  simp [renderToks]

/-- Token rendering distributes over append. -/
theorem renderToks_append (a b : List Tok) :
    renderToks (a ++ b) = renderToks a ++ renderToks b := by
  simp [renderToks]

/-- The element chunks of a pass render to the token stream of the selected
sibling subtrees. -/
theorem renderChunks_elems (sel : List XTree) :
    renderChunks (sel.map (fun t => Chunk.elemChunk (tostring t))) =
      renderToks (forestToks sel) := by
  induction sel with
  | nil => rfl
  | cons c cs ih =>
    simp only [List.map_cons, renderChunks_cons, renderChunk, forestToks,
      renderToks_append, tostring] at ih ⊢
    rw [ih]

/-- The bytes of a successful pass are the XML declaration followed by the
rendering of the output token stream. -/
theorem renderChunks_pass (sel : List XTree) :
    renderChunks (Chunk.decl :: Chunk.openRoot ::
        (sel.map (fun t => Chunk.elemChunk (tostring t)) ++ [Chunk.closeRoot])) =
      "<?xml version=\"1.0\" encoding=\"UTF-8\"?>\n".data ++
        renderToks (outputToks sel) := by
  rw [renderChunks_cons, renderChunks_cons, renderChunks_append,
    renderChunks_elems]
  rw [outputToks, renderToks_cons, renderToks_cons, renderToks_append]
  have h1 : renderChunk Chunk.openRoot =
      renderTok (Tok.openT "osm") ++ renderTok (Tok.textT "\n  ") := rfl
  have h2 : renderChunks [Chunk.closeRoot] = renderToks [Tok.closeT "osm"] := rfl
  rw [h1, h2]
  simp only [List.append_assoc]
  rfl

mutual

/-- The token stream of a subtree is balanced: running the checker through it
leaves the stack unchanged. -/
theorem chkAux_treeToks (tr : XTree) :
    ∀ (stk : List String) (rest : List Tok),
      chkAux stk (treeToks tr ++ rest) = chkAux stk rest := by
  cases tr with
  | node t cs =>
    intro stk rest
    have e : treeToks (XTree.node t cs) ++ rest =
        Tok.openT t :: (forestToks cs ++ (Tok.closeT t :: rest)) := by
      simp [treeToks]
    rw [e]
    rw [show chkAux stk
        (Tok.openT t :: (forestToks cs ++ (Tok.closeT t :: rest)))
        = chkAux (t :: stk) (forestToks cs ++ (Tok.closeT t :: rest)) from rfl]
    rw [chkAux_forestToks cs (t :: stk) (Tok.closeT t :: rest)]
    simp [chkAux]

/-- The token stream of a forest is balanced. -/
theorem chkAux_forestToks (cs : List XTree) :
    ∀ (stk : List String) (rest : List Tok),
      chkAux stk (forestToks cs ++ rest) = chkAux stk rest := by
  cases cs with
  | nil => intro stk rest; simp [forestToks]
  | cons c cs' =>
    intro stk rest
    rw [show forestToks (c :: cs') = treeToks c ++ forestToks cs' from rfl,
      List.append_assoc, chkAux_treeToks c, chkAux_forestToks cs']

end

/-- The token stream of an output file is well-formed. -/
theorem chkAux_outputToks (sel : List XTree) :
    chkAux [] (outputToks sel) = true := by
  rw [outputToks]
  rw [show chkAux []
      (Tok.openT "osm" :: Tok.textT "\n  " ::
        (forestToks sel ++ [Tok.closeT "osm"]))
      = chkAux ["osm"] (forestToks sel ++ [Tok.closeT "osm"]) from rfl]
  rw [chkAux_forestToks sel ["osm"] [Tok.closeT "osm"]]
  rfl

/-- C9 amended: every successfully produced output file consists exactly of
the XML declaration, the opening root tag (with its trailing whitespace), the
serialised sampled elements and the matching closing root tag; parsed back,
its token stream is balanced (well-formed) and its root tag is exactly the
lowercase "osm" — which equals the source's root tag whenever the source root
is spelled "osm", though not for a source root accepted with different case. -/
theorem c9_output_wellformed (evs : List Event) (tags : List String) (k : Nat)
    (hk : 1 ≤ k) :
    renderChunks (withBlockChunks tags k (evs.map Except.ok)).1 =
        "<?xml version=\"1.0\" encoding=\"UTF-8\"?>\n".data ++
          renderToks (outputToks (sampleEvery k (get_element tags evs)))
      ∧ chkAux [] (outputToks (sampleEvery k (get_element tags evs))) = true
      ∧ firstOpenTag (outputToks (sampleEvery k (get_element tags evs))) =
          some "osm" := by
  refine ⟨?_, chkAux_outputToks _, rfl⟩
  unfold sampleEvery
  rw [withBlockChunks_pure tags hk evs]
  exact renderChunks_pass (sampleAux k 0 (get_element tags evs))

/-- Witness for C9's amended statement at a concrete document and stride. -/
theorem c9_output_wellformed_witness :
    1 ≤ 2
    ∧ (renderChunks (withBlockChunks ["node"] 2
          ((treeEvents doc0).map Except.ok)).1 =
        "<?xml version=\"1.0\" encoding=\"UTF-8\"?>\n".data ++
          renderToks (outputToks
            (sampleEvery 2 (get_element ["node"] (treeEvents doc0))))
      ∧ chkAux [] (outputToks
          (sampleEvery 2 (get_element ["node"] (treeEvents doc0)))) = true
      ∧ firstOpenTag (outputToks
          (sampleEvery 2 (get_element ["node"] (treeEvents doc0)))) =
          some "osm") :=
  ⟨by decide, c9_output_wellformed (treeEvents doc0) ["node"] 2 (by decide)⟩

/-- C9 counterexample: for a source whose root tag is "OSM" — accepted by the
case-insensitive root validation — the output file's root tag is the
hard-coded lowercase "osm", which is not the source document's root tag. -/
theorem c9_rootTag_counterexample :
    (check_root (docEvents docOSM)).toOption.isSome = true
    ∧ docOSM.tag = "OSM"
    ∧ renderChunks (withBlockChunks ["node"] 1 (docEvents docOSM)).1 =
        "<?xml version=\"1.0\" encoding=\"UTF-8\"?>\n".data ++
          renderToks (outputToks
            (sampleEvery 1 (get_element ["node"] (treeEvents docOSM))))
    ∧ firstOpenTag (outputToks
        (sampleEvery 1 (get_element ["node"] (treeEvents docOSM)))) = some "osm"
    ∧ some "osm" ≠ some docOSM.tag :=
  ⟨rfl, rfl, rfl, rfl, by decide⟩

end OSMFrame
